import Mathlib

/-!
Shallow embedding of the price-checker repository's core
(`src/core/models.py` and `src/analysis/comparison.py`).

Modelling conventions:
* Python `Decimal`/`float` values are modelled as `ℚ` (the spec fixes real
  arithmetic for the unit-price division); `datetime` timestamps as `ℤ`.
* The regex `(\d+(?:\.\d+)?)\s*([a-zA-Z]+)` is embedded as a deterministic
  parser over `List Char`.  Its three character classes (digits, whitespace,
  ASCII letters) are pairwise disjoint and `.` belongs to none of them, so
  greedy left-to-right parsing coincides with the regex engine's
  backtracking search; `re.match` anchors at the start of the string while
  `re.search` retries at every later start position.
* Python's `sorted(key=k)` is a stable ascending sort; it is embedded as
  `List.insertionSort (fun a b => k a ≤ k b)` (Mathlib's insertion sort
  inserts each earlier element before later elements of equal key, which is
  exactly stability).  `sorted(key=k, reverse=True)` is the stable
  descending sort `List.insertionSort (fun a b => k b ≤ k a)`.
* Python truthiness is modelled explicitly where the code relies on it:
  `None`, `Decimal(0)` and `""` are falsy.
-/

/-- Python regex `\d` restricted to ASCII (all inputs of interest are ASCII). -/
def isDigitChar (c : Char) : Bool := c.isDigit

/-- Python regex `\s` (ASCII): space, tab, newline, carriage return, vertical
tab, form feed. -/
def isSpaceChar (c : Char) : Bool :=
  c == ' ' || c == '\t' || c == '\n' || c == '\r' || c == '\x0b' || c == '\x0c'

/-- Python regex character class `[a-zA-Z]`. -/
def isLetterChar (c : Char) : Bool :=
  ('a' ≤ c && c ≤ 'z') || ('A' ≤ c && c ≤ 'Z')

/-- Numeric value of a run of decimal digit characters. -/
def digitsVal (ds : List Char) : ℕ :=
  ds.foldl (fun acc c => acc * 10 + (c.toNat - 48)) 0

/-- Value of `float(match.group(1))` where group 1 split into integer part
`ip` and fractional part `fp` (empty when no decimal point matched). -/
def ratVal (ip fp : List Char) : ℚ :=
  (digitsVal ip : ℚ) + (digitsVal fp : ℚ) / (10 : ℚ) ^ fp.length

/-- The optional `(?:\.\d+)?` step of the regex: consume `.` followed by a
nonempty digit run when present; otherwise consume nothing.  Returns the
fractional digits and the remaining input. -/
def fracSplit (rest : List Char) : List Char × List Char :=
  match rest with
  | [] => ([], [])
  | c :: r =>
    if c = '.' ∧ r.takeWhile isDigitChar ≠ [] then (r.takeWhile isDigitChar, r.dropWhile isDigitChar)
    else ([], c :: r)

/-- `re.match(r'(\d+(?:\.\d+)?)\s*([a-zA-Z]+)', s)`: anchored at the start of
`s`; on success returns (value of group 1 as a rational, group 2 = the
maximal letter run). -/
def matchNumUnit (s : List Char) : Option (ℚ × List Char) :=
  let intPart := s.takeWhile isDigitChar
  if intPart = [] then none
  else
    let fp := fracSplit (s.dropWhile isDigitChar)
    let afterSpaces := fp.2.dropWhile isSpaceChar
    let letters := afterSpaces.takeWhile isLetterChar
    if letters = [] then none
    else some (ratVal intPart fp.1, letters)

/-- `re.search` of the same pattern: the leftmost start position at which the
anchored pattern matches. -/
def searchNumUnit : List Char → Option (ℚ × List Char)
  | [] => none
  | c :: cs =>
    match matchNumUnit (c :: cs) with
    | some r => some r
    | none => searchNumUnit cs

/-- Python `str.lower()` (ASCII inputs). -/
def lowerStr (s : String) : String := String.mk (s.toList.map Char.toLower)

/-- The unit-alias conversion table of `ProductComparison.normalize_unit`
(the chain of `if unit in (...)` branches, applied to the already-lowercased
unit token); the final `return (value, unit)` is the default branch. -/
def convertUnit (value : ℚ) (unit : String) : ℚ × String :=
  if unit ∈ ["g", "gram", "grams"] then (value, "g")
  else if unit ∈ ["kg", "kilo", "kilos", "kilogram", "kilograms"] then (value * 1000, "g")
  else if unit ∈ ["oz", "ounce", "ounces"] then (value * (2835 / 100 : ℚ), "g")
  else if unit ∈ ["lb", "lbs", "pound", "pounds"] then (value * (45359 / 100 : ℚ), "g")
  else if unit ∈ ["ml", "milliliter", "milliliters"] then (value, "ml")
  else if unit ∈ ["l", "liter", "liters"] then (value * 1000, "ml")
  else if unit ∈ ["fl oz", "fluid ounce", "fluid ounces"] then (value * (2957 / 100 : ℚ), "ml")
  else if unit ∈ ["cm", "centimeter", "centimeters"] then (value, "cm")
  else if unit ∈ ["m", "meter", "meters"] then (value * 100, "cm")
  else if unit ∈ ["in", "inch", "inches"] then (value * (254 / 100 : ℚ), "cm")
  else (value, unit)

/-- `ProductComparison.normalize_unit`.  Empty input (`if not
unit_measurement`) yields `(1, 'item')`; a failed anchored match yields
`(1, unit_measurement)`; otherwise the value and lowercased unit go through
the conversion table. -/
def normalize_unit (unit_measurement : String) : ℚ × String :=
  if unit_measurement = "" then (1, "item")
  else
    match matchNumUnit unit_measurement.toList with
    | none => (1, unit_measurement)
    | some (v, u) => convertUnit v (lowerStr (String.mk u))

/-- `PricePoint` from `src/core/models.py`. -/
structure PricePoint where
  price : ℚ
  timestamp : ℤ
  currency : String := "USD"
  per_unit_price : Option ℚ := none
  unit_measurement : Option String := none
deriving DecidableEq

/-- `Product` (the fields the core reads; `attributes` is a Python dict,
modelled as an association list in insertion order). -/
structure Product where
  asin : String
  title : String
  attributes : List (String × String) := []
  price_history : List PricePoint := []
deriving DecidableEq

/-- Python `sorted(l, key=k)`: stable ascending sort. -/
def sortedAscBy (k : α → ℤ) (l : List α) : List α :=
  List.insertionSort (fun a b => k a ≤ k b) l

/-- Python `sorted(l, key=k, reverse=True)`: stable descending sort
(elements with equal keys keep their original relative order). -/
def sortedDescBy (k : α → ℤ) (l : List α) : List α :=
  List.insertionSort (fun a b => k b ≤ k a) l

/-- `Product.current_price`: `None` on an empty history, else the head of
the history sorted by timestamp descending. -/
def Product.current_price (p : Product) : Option PricePoint :=
  if p.price_history = [] then none
  else (sortedDescBy (fun q => q.timestamp) p.price_history).head?

/-- The dict returned by `Product.price_change` (`current`, `previous` and
`currency` keys are absent in the fewer-than-two-observations branch,
modelled as `none`). -/
structure ChangeMetrics where
  percentage : ℚ
  absolute : ℚ
  has_changed : Bool
  current : Option ℚ := none
  previous : Option ℚ := none
  currency : Option String := none
deriving DecidableEq

/-- `Product.price_change`: sort ascending by timestamp, compare the last
two observations. -/
def Product.price_change (p : Product) : ChangeMetrics :=
  if p.price_history.length < 2 then
    { percentage := 0, absolute := 0, has_changed := false }
  else
    match (sortedAscBy (fun q => q.timestamp) p.price_history).reverse with
    | cur :: prev :: _ =>
      { percentage :=
          if prev.price = 0 then 0
          else ((cur.price - prev.price) / prev.price) * 100,
        absolute := cur.price - prev.price,
        has_changed := cur.price ≠ prev.price,
        current := some cur.price,
        previous := some prev.price,
        currency := some cur.currency }
    | _ =>
      -- unreachable: a list of length ≥ 2 reversed has ≥ 2 elements
      { percentage := 0, absolute := 0, has_changed := false }

/-- The dict returned by `ProductComparison.calculate_unit_price`. -/
structure UnitPriceInfo where
  price : ℚ
  unit_value : ℚ
  unit : String
  original_unit : String
  currency : String
deriving DecidableEq

/-- Decimal digits of the fractional part `r / d` (with fuel; every rational
reaching it in this development has a terminating decimal expansion, and the
expansion of `r / d` stops as soon as the remainder hits zero, which drops
trailing zeros exactly as Python's shortest float repr does). -/
def fracDigitChars : ℕ → ℕ → ℕ → List Char
  | 0, _, _ => []
  | fuel + 1, r, d =>
    if r = 0 then []
    else Char.ofNat (48 + r * 10 / d) :: fracDigitChars fuel (r * 10 % d) d

/-- Python `f"{quantity}"` for a float holding the rational `q`: integer part,
a dot, and the fractional digits (`".0"` when `q` is an integer).  Exponent
notation for huge magnitudes is outside the modelled input range. -/
def pyFloatStr (q : ℚ) : String :=
  let sign := if q < 0 then "-" else ""
  let n := q.num.natAbs
  let d := q.den
  if n % d = 0 then sign ++ toString (n / d) ++ ".0"
  else sign ++ toString (n / d) ++ "." ++ String.mk (fracDigitChars 64 (n % d) d)

/-- Python truthiness of an optional `Decimal` (`None` and `Decimal(0)` are
falsy). -/
def decimalTruthy : Option ℚ → Bool
  | none => false
  | some q => q != 0

/-- Python truthiness of an optional string (`None` and `""` are falsy). -/
def strTruthy : Option String → Bool
  | none => false
  | some s => s != ""

/-- The fixed attribute-key priority list of `calculate_unit_price`. -/
def unit_keys : List String := ["size", "weight", "quantity", "volume", "dimensions"]

/-- The `for key in unit_keys` loop of `calculate_unit_price`: for the first
key present in `attrs` whose value contains the number-unit pattern and whose
normalized magnitude is positive, return the inferred unit price; keys that
are absent, fail to match, or normalize to a non-positive magnitude fall
through to the next key. -/
def attrUnitPriceGo (attrs : List (String × String)) (price : ℚ) (currency : String) :
    List String → Option UnitPriceInfo
  | [] => none
  | key :: ks =>
    match attrs.lookup key with
    | none => attrUnitPriceGo attrs price currency ks
    | some value =>
      match searchNumUnit value.toList with
      | none => attrUnitPriceGo attrs price currency ks
      | some (quantity, unitChars) =>
        let original := pyFloatStr quantity ++ " " ++ String.mk unitChars
        let normalized := normalize_unit original
        if normalized.1 > 0 then
          some { price := price / normalized.1, unit_value := normalized.1,
                 unit := normalized.2, original_unit := original,
                 currency := currency }
        else attrUnitPriceGo attrs price currency ks

/-- The attribute-scanning tier of `calculate_unit_price`. -/
def attrUnitPrice (attrs : List (String × String)) (price : ℚ) (currency : String) :
    Option UnitPriceInfo :=
  attrUnitPriceGo attrs price currency unit_keys

/-- `ProductComparison.calculate_unit_price`: `None` without a current price;
else the declared per-unit tier (guarded by Python truthiness of both
fields), else the attribute tier, else price per item. -/
def calculate_unit_price (product : Product) : Option UnitPriceInfo :=
  match product.current_price with
  | none => none
  | some cp =>
    if decimalTruthy cp.per_unit_price && strTruthy cp.unit_measurement then
      let n := normalize_unit (cp.unit_measurement.getD "")
      some { price := cp.per_unit_price.getD 0, unit_value := n.1, unit := n.2,
             original_unit := cp.unit_measurement.getD "", currency := cp.currency }
    else
      match attrUnitPrice product.attributes cp.price cp.currency with
      | some r => some r
      | none =>
        some { price := cp.price, unit_value := 1, unit := "item",
               original_unit := "each", currency := cp.currency }

/-- One entry of the list built by `ProductComparison.compare_products`. -/
structure ComparisonRow where
  product : Product
  unit_price_info : UnitPriceInfo
  total_price : Option ℚ
  currency : Option String
deriving DecidableEq

/-- The row-building loop of `compare_products`: products whose unit price is
`None` are skipped. -/
def buildRows : List Product → List ComparisonRow
  | [] => []
  | p :: ps =>
    match calculate_unit_price p with
    | none => buildRows ps
    | some info =>
      { product := p, unit_price_info := info,
        total_price := (Product.current_price p).map (fun c => c.price),
        currency := (Product.current_price p).map (fun c => c.currency) } :: buildRows ps

/-- The default sort key of `compare_products`:
`float(x['total_price']) if x['total_price'] else float('inf')` — a missing
total **or a zero total** (Python truthiness of `Decimal`) becomes `+∞`. -/
def totalKey (r : ComparisonRow) : WithTop ℚ :=
  match r.total_price with
  | none => ⊤
  | some t => if t = 0 then ⊤ else (t : WithTop ℚ)

/-- `ProductComparison.compare_products`: build the rows; when a truthy
target unit is given, the rows are nonempty and every row's canonical unit
equals the target, sort ascending by unit price; otherwise sort ascending by
the total-price key. -/
def compare_products (products : List Product) (target_unit : Option String) :
    List ComparisonRow :=
  let result := buildRows products
  match target_unit with
  | some t =>
    if t ≠ "" ∧ result ≠ [] ∧ result.all (fun r => r.unit_price_info.unit == t) then
      List.insertionSort
        (fun a b => a.unit_price_info.price ≤ b.unit_price_info.price) result
    else
      List.insertionSort (fun a b => totalKey a ≤ totalKey b) result
  | none => List.insertionSort (fun a b => totalKey a ≤ totalKey b) result

/-- Specification-side description of the tie-break claimed for
`current_price`: the first element of the history attaining the maximal
timestamp (earliest-appended wins on ties). -/
def firstMaxByTimestamp : List PricePoint → Option PricePoint
  | [] => none
  | [a] => some a
  | a :: b :: l =>
    match firstMaxByTimestamp (b :: l) with
    | some m => if m.timestamp ≤ a.timestamp then some a else some m
    | none => some a

/-- Example product for the tier-2 unit-price scenario: priced 5 with
attribute `weight="200g"` and no declared per-unit data. -/
def weightedProduct : Product :=
  { asin := "A1", title := "Widget A", attributes := [("weight", "200g")],
    price_history := [{ price := 5, timestamp := 1 }] }

/-- Example product with a two-point history whose later observation is
cheaper. -/
def droppedPriceProduct : Product :=
  { asin := "A2", title := "Widget B",
    price_history := [{ price := 5, timestamp := 1 }, { price := 3, timestamp := 2 }] }

/-- Example product whose single observation has amount 0. -/
def zeroTotalProduct : Product :=
  { asin := "A3", title := "Widget C", price_history := [{ price := 0, timestamp := 0 }] }

/-- Example product whose single observation has amount 3. -/
def threeTotalProduct : Product :=
  { asin := "A4", title := "Widget D", price_history := [{ price := 3, timestamp := 0 }] }

/-- Example product whose single observation has amount 5. -/
def fiveTotalProduct : Product :=
  { asin := "A5", title := "Widget E", price_history := [{ price := 5, timestamp := 0 }] }

/-- Example product with two observations sharing the maximal timestamp. -/
def tiedTimestampProduct : Product :=
  { asin := "A6", title := "Widget F",
    price_history := [{ price := 10, timestamp := 5 }, { price := 20, timestamp := 5 },
                      { price := 30, timestamp := 3 }] }

/-! ### Helper lemmas about the character classes and run parsing -/

theorem isSpaceChar_cases {c : Char} (h : isSpaceChar c = true) :
    c = ' ' ∨ c = '\t' ∨ c = '\n' ∨ c = '\r' ∨ c = '\x0b' ∨ c = '\x0c' := by
  have h' := h
  simp only [isSpaceChar, Bool.or_eq_true, beq_iff_eq] at h'
  tauto

theorem space_not_digit {c : Char} (h : isSpaceChar c = true) : isDigitChar c = false := by
  rcases isSpaceChar_cases h with rfl | rfl | rfl | rfl | rfl | rfl <;> decide

theorem space_ne_dot {c : Char} (h : isSpaceChar c = true) : c ≠ '.' := by
  rcases isSpaceChar_cases h with rfl | rfl | rfl | rfl | rfl | rfl <;> decide

theorem letter_not_digit {c : Char} (h : isLetterChar c = true) : isDigitChar c = false := by
  simp only [isLetterChar, Bool.or_eq_true, Bool.and_eq_true, decide_eq_true_eq] at h
  simp only [isDigitChar, Char.isDigit, Bool.and_eq_false_iff, decide_eq_false_iff_not, ge_iff_le,
    not_le]
  rcases h with ⟨h1, _⟩ | ⟨h1, _⟩ <;>
    · right
      intro h9
      have h9' : c ≤ '9' := Char.le_def.mpr h9
      exact absurd (le_trans h1 h9') (by decide)

theorem letter_ne_dot {c : Char} (h : isLetterChar c = true) : c ≠ '.' := by
  intro hc
  subst hc
  exact absurd h (by decide)

theorem letter_not_space {c : Char} (h : isLetterChar c = true) : isSpaceChar c = false := by
  by_contra hs
  rcases isSpaceChar_cases (Bool.of_not_eq_false hs) with rfl | rfl | rfl | rfl | rfl | rfl <;>
    exact absurd h (by decide)

theorem takeWhile_run {p : Char → Bool} {d rest : List Char}
    (hd : ∀ c ∈ d, p c = true) (hr : rest.takeWhile p = []) :
    (d ++ rest).takeWhile p = d := by
  rw [List.takeWhile_append]
  have hself : d.takeWhile p = d := List.takeWhile_eq_self_iff.mpr hd
  simp [hself, hr]

theorem dropWhile_run {p : Char → Bool} {d rest : List Char}
    (hd : ∀ c ∈ d, p c = true) (hr : rest.takeWhile p = []) :
    (d ++ rest).dropWhile p = rest := by
  rw [List.dropWhile_append]
  have hdrop : d.dropWhile p = [] := by
    have h0 := List.takeWhile_append_dropWhile (p := p) (l := d)
    rw [List.takeWhile_eq_self_iff.mpr hd] at h0
    simpa using h0
  have hrest : rest.dropWhile p = rest := by
    have := List.takeWhile_append_dropWhile (p := p) (l := rest)
    rwa [hr, List.nil_append] at this
  simp [hdrop, hrest]

theorem takeWhile_nil_of_head {p : Char → Bool} {c : Char} {cs : List Char}
    (h : p c = false) : (c :: cs).takeWhile p = [] := by
  simp [List.takeWhile_cons, h]

theorem fracSplit_not_dot {c : Char} {r : List Char} (h : c ≠ '.') :
    fracSplit (c :: r) = ([], c :: r) := by
  simp only [fracSplit]
  rw [if_neg]
  rintro ⟨hc, _⟩
  exact h hc

theorem chunk_not_digit {sp l r : List Char}
    (hsp : ∀ c ∈ sp, isSpaceChar c = true)
    (hl : l ≠ []) (hll : ∀ c ∈ l, isLetterChar c = true) :
    (sp ++ (l ++ r)).takeWhile isDigitChar = [] := by
  cases sp with
  | nil =>
    cases l with
    | nil => exact absurd rfl hl
    | cons c cs =>
      simpa using @takeWhile_nil_of_head _ _ (cs ++ r) (letter_not_digit (hll c (by simp)))
  | cons c cs =>
    simpa using @takeWhile_nil_of_head _ _ (cs ++ (l ++ r)) (space_not_digit (hsp c (by simp)))

theorem chunk_fracSplit {sp l r : List Char}
    (hsp : ∀ c ∈ sp, isSpaceChar c = true)
    (hl : l ≠ []) (hll : ∀ c ∈ l, isLetterChar c = true) :
    fracSplit (sp ++ (l ++ r)) = ([], sp ++ (l ++ r)) := by
  cases sp with
  | nil =>
    cases l with
    | nil => exact absurd rfl hl
    | cons c cs =>
      simpa using fracSplit_not_dot (r := cs ++ r) (letter_ne_dot (hll c (by simp)))
  | cons c cs =>
    simpa using fracSplit_not_dot (r := cs ++ (l ++ r)) (space_ne_dot (hsp c (by simp)))

theorem chunk_dropSpaces {sp l r : List Char}
    (hsp : ∀ c ∈ sp, isSpaceChar c = true)
    (hl : l ≠ []) (hll : ∀ c ∈ l, isLetterChar c = true) :
    (sp ++ (l ++ r)).dropWhile isSpaceChar = l ++ r := by
  apply dropWhile_run hsp
  cases l with
  | nil => exact absurd rfl hl
  | cons c cs =>
    simpa using @takeWhile_nil_of_head _ _ (cs ++ r) (letter_not_space (hll c (by simp)))

/-- The anchored pattern on a literal decomposition `digits ++ spaces ++
letters ++ rest` (no decimal point, `rest` not starting with a letter):
matches with value `digitsVal d` and unit token `l`. -/
theorem matchNumUnit_run {d sp l r : List Char}
    (hd : d ≠ []) (hdd : ∀ c ∈ d, isDigitChar c = true)
    (hsp : ∀ c ∈ sp, isSpaceChar c = true)
    (hl : l ≠ []) (hll : ∀ c ∈ l, isLetterChar c = true)
    (hr : r.takeWhile isLetterChar = []) :
    matchNumUnit (d ++ (sp ++ (l ++ r))) = some ((digitsVal d : ℚ), l) := by
  have hchunk := chunk_not_digit (r := r) hsp hl hll
  have h1 : (d ++ (sp ++ (l ++ r))).takeWhile isDigitChar = d := takeWhile_run hdd hchunk
  have h2 : (d ++ (sp ++ (l ++ r))).dropWhile isDigitChar = sp ++ (l ++ r) :=
    dropWhile_run hdd hchunk
  have h5 : (l ++ r).takeWhile isLetterChar = l := takeWhile_run hll hr
  simp only [matchNumUnit, h1, h2, chunk_fracSplit hsp hl hll, chunk_dropSpaces hsp hl hll, h5,
    if_neg hd, if_neg hl]
  simp [ratVal, digitsVal]

/-- The anchored pattern on `digits ++ "." ++ fracDigits ++ spaces ++ letters
++ rest`: matches with value `ratVal d f` and unit token `l`. -/
theorem matchNumUnit_run_frac {d f sp l r : List Char}
    (hd : d ≠ []) (hdd : ∀ c ∈ d, isDigitChar c = true)
    (hf : f ≠ []) (hff : ∀ c ∈ f, isDigitChar c = true)
    (hsp : ∀ c ∈ sp, isSpaceChar c = true)
    (hl : l ≠ []) (hll : ∀ c ∈ l, isLetterChar c = true)
    (hr : r.takeWhile isLetterChar = []) :
    matchNumUnit (d ++ ('.' :: (f ++ (sp ++ (l ++ r))))) = some (ratVal d f, l) := by
  have hchunk := chunk_not_digit (r := r) hsp hl hll
  have hdot : ('.' :: (f ++ (sp ++ (l ++ r)))).takeWhile isDigitChar = [] :=
    takeWhile_nil_of_head (by decide)
  have h1 : (d ++ ('.' :: (f ++ (sp ++ (l ++ r))))).takeWhile isDigitChar = d :=
    takeWhile_run hdd hdot
  have h2 : (d ++ ('.' :: (f ++ (sp ++ (l ++ r))))).dropWhile isDigitChar =
      '.' :: (f ++ (sp ++ (l ++ r))) := dropWhile_run hdd hdot
  have hft : (f ++ (sp ++ (l ++ r))).takeWhile isDigitChar = f := takeWhile_run hff hchunk
  have hfd : (f ++ (sp ++ (l ++ r))).dropWhile isDigitChar = sp ++ (l ++ r) :=
    dropWhile_run hff hchunk
  have h3 : fracSplit ('.' :: (f ++ (sp ++ (l ++ r)))) = (f, sp ++ (l ++ r)) := by
    simp [fracSplit, hft, hfd, hf]
  have h5 : (l ++ r).takeWhile isLetterChar = l := takeWhile_run hll hr
  simp only [matchNumUnit, h1, h2, h3, chunk_dropSpaces hsp hl hll, h5, if_neg hd, if_neg hl]

/-- The anchored pattern fails whenever the input does not begin with a
digit (`re.match` does not skip a non-numeric prefix). -/
theorem matchNumUnit_head_not_digit {c : Char} {cs : List Char}
    (h : isDigitChar c = false) : matchNumUnit (c :: cs) = none := by
  simp [matchNumUnit, takeWhile_nil_of_head h]

/-- `normalize_unit` on a nonempty input whose anchored match fails returns
magnitude 1 with the entire original string. -/
theorem normalize_unit_no_match {s : String} (hs : s ≠ "")
    (hm : matchNumUnit s.toList = none) : normalize_unit s = (1, s) := by
  have hm' : matchNumUnit s.data = none := hm
  simp [normalize_unit, hs, hm']

/-! ### Helper lemmas about the calculator and comparison pipeline -/

theorem attrUnitPriceGo_append_none {attrs : List (String × String)} {price : ℚ}
    {currency : String} (l1 rest : List String) (h : ∀ k ∈ l1, attrs.lookup k = none) :
    attrUnitPriceGo attrs price currency (l1 ++ rest) =
      attrUnitPriceGo attrs price currency rest := by
  induction l1 with
  | nil => rfl
  | cons k ks ih =>
    have hk : attrs.lookup k = none := h k (by simp)
    simp only [List.cons_append, attrUnitPriceGo, hk]
    exact ih (fun k' hk' => h k' (by simp [hk']))

theorem attrUnitPriceGo_pos {attrs : List (String × String)} {price : ℚ} {currency : String} :
    ∀ (ks : List String) (r : UnitPriceInfo),
      attrUnitPriceGo attrs price currency ks = some r →
        0 < r.unit_value ∧ r.price = price / r.unit_value := by
  intro ks
  induction ks with
  | nil => intro r hr; simp [attrUnitPriceGo] at hr
  | cons k ks ih =>
    intro r hr
    rw [attrUnitPriceGo] at hr
    rcases hl : attrs.lookup k with _ | v
    · simp only [hl] at hr; exact ih r hr
    · simp only [hl] at hr
      rcases hs : searchNumUnit v.toList with _ | qu
      · simp only [hs] at hr; exact ih r hr
      · rcases qu with ⟨q, u⟩
        simp only [hs] at hr
        by_cases hp : (normalize_unit (pyFloatStr q ++ " " ++ String.mk u)).1 > 0
        · rw [if_pos hp] at hr
          rcases Option.some_injective _ hr.symm with rfl
          exact ⟨hp, rfl⟩
        · rw [if_neg hp] at hr; exact ih r hr

theorem attrUnitPriceGo_skip_nonpos {attrs : List (String × String)} {price : ℚ}
    {currency k v : String} {ks : List String} {q : ℚ} {u : List Char}
    (hv : attrs.lookup k = some v) (hs : searchNumUnit v.toList = some (q, u))
    (hnp : (normalize_unit (pyFloatStr q ++ " " ++ String.mk u)).1 ≤ 0) :
    attrUnitPriceGo attrs price currency (k :: ks) = attrUnitPriceGo attrs price currency ks := by
  rw [attrUnitPriceGo]
  simp only [hv, hs]
  exact if_neg (not_lt.mpr hnp)

theorem current_price_none_iff (p : Product) :
    p.current_price = none ↔ p.price_history = [] := by
  by_cases h : p.price_history = []
  · simp [Product.current_price, h]
  · simp only [Product.current_price, if_neg h]
    constructor
    · intro hh
      have hnil : sortedDescBy (fun q => q.timestamp) p.price_history = [] :=
        List.head?_eq_none_iff.mp hh
      have hlen := congrArg List.length hnil
      simp only [sortedDescBy, List.length_insertionSort, List.length_nil] at hlen
      exact absurd (List.length_eq_zero.mp hlen) h
    · intro hh; exact absurd hh h

theorem calculate_unit_price_none_iff (p : Product) :
    calculate_unit_price p = none ↔ p.price_history = [] := by
  constructor
  · intro hc
    by_contra h
    have hne : p.current_price ≠ none := fun hn => h ((current_price_none_iff p).mp hn)
    rcases Option.ne_none_iff_exists.mp hne with ⟨cp, hcp⟩
    have hcalc : calculate_unit_price p ≠ none := by
      rw [calculate_unit_price]
      simp only [← hcp]
      by_cases hg : (decimalTruthy cp.per_unit_price && strTruthy cp.unit_measurement) = true
      · simp [hg]
      · simp only [Bool.not_eq_true] at hg
        simp only [hg, Bool.false_eq_true, if_false]
        rcases ha : attrUnitPrice p.attributes cp.price cp.currency with _ | r
        · simp [ha]
        · simp [ha]
    exact hcalc hc
  · intro h
    have : p.current_price = none := (current_price_none_iff p).mpr h
    simp [calculate_unit_price, this]

theorem buildRows_length (ps : List Product) :
    (buildRows ps).length = (ps.filter (fun p => !p.price_history.isEmpty)).length := by
  induction ps with
  | nil => rfl
  | cons p ps ih =>
    rcases hc : calculate_unit_price p with _ | info
    · have hnil : p.price_history = [] := (calculate_unit_price_none_iff p).mp hc
      simp [buildRows, hc, List.filter_cons, hnil, ih]
    · have hne : p.price_history ≠ [] := fun hn =>
        by rw [(calculate_unit_price_none_iff p).mpr hn] at hc; exact Option.noConfusion hc
      have hemp : p.price_history.isEmpty = false := by
        simpa [List.isEmpty_iff] using hne
      simp [buildRows, hc, List.filter_cons, hemp, ih]

theorem head_insertionSort_desc (l : List PricePoint) :
    (List.insertionSort (fun a b : PricePoint => b.timestamp ≤ a.timestamp) l).head? =
      firstMaxByTimestamp l := by
  induction l with
  | nil => rfl
  | cons a t ih =>
    rcases t with _ | ⟨b, t'⟩
    · rfl
    · rcases ht : List.insertionSort (fun a b : PricePoint => b.timestamp ≤ a.timestamp) (b :: t')
        with _ | ⟨m, rest⟩
      · have hlen := congrArg List.length ht
        simp only [List.length_insertionSort, List.length_cons, List.length_nil] at hlen
        exact absurd hlen (Nat.succ_ne_zero _)
      · rw [ht] at ih
        rw [List.insertionSort, ht, firstMaxByTimestamp, ← ih]
        simp only [List.head?]
        simp only [List.orderedInsert]
        split_ifs with hle
        · simp
        · simp

theorem string_mk_ne_empty {l : List Char} (h : l ≠ []) : String.mk l ≠ "" := by
  intro he
  exact h (congrArg String.data he)

/-- `normalize_unit` on a nonempty input whose anchored match succeeds
applies the conversion table to the parsed value and lowercased unit. -/
theorem normalize_unit_of_match {s : String} {v : ℚ} {u : List Char} (hs : s ≠ "")
    (hm : matchNumUnit s.toList = some (v, u)) :
    normalize_unit s = convertUnit v (lowerStr (String.mk u)) := by
  have hm' : matchNumUnit s.data = some (v, u) := hm
  simp [normalize_unit, hs, hm']

theorem searchNumUnit_of_match {c : Char} {cs : List Char} {r : ℚ × List Char}
    (h : matchNumUnit (c :: cs) = some r) : searchNumUnit (c :: cs) = some r := by
  rw [searchNumUnit, h]

theorem convertUnit_g (v : ℚ) : convertUnit v "g" = (v, "g") := rfl

theorem convertUnit_kg (v : ℚ) : convertUnit v "kg" = (v * 1000, "g") := rfl

theorem convertUnit_lbs (v : ℚ) : convertUnit v "lbs" = (v * (45359 / 100 : ℚ), "g") := rfl

theorem convertUnit_fl (v : ℚ) : convertUnit v "fl" = (v, "fl") := rfl

theorem convertUnit_fluid (v : ℚ) : convertUnit v "fluid" = (v, "fluid") := rfl

/-- Concrete evaluation: `normalize_unit "12 fl oz"` parses unit token
`"fl"` (letter runs cannot span the space). -/
theorem normalize_unit_12_fl_oz : normalize_unit "12 fl oz" = (12, "fl") := by
  have hm := @matchNumUnit_run ['1', '2'] [' '] ['f', 'l']
    [' ', 'o', 'z'] (by decide) (by decide) (by decide) (by decide) (by decide) (by decide)
  have h := normalize_unit_of_match (s := "12 fl oz") (by decide) hm
  rw [h, show lowerStr (String.mk ['f', 'l']) = "fl" from rfl, convertUnit_fl,
    show digitsVal ['1', '2'] = 12 from rfl]
  norm_num

/-- Concrete evaluation: `normalize_unit "12 fluid ounces"` parses unit
token `"fluid"`. -/
theorem normalize_unit_12_fluid : normalize_unit "12 fluid ounces" = (12, "fluid") := by
  have hm := @matchNumUnit_run ['1', '2'] [' ']
    ['f', 'l', 'u', 'i', 'd'] [' ', 'o', 'u', 'n', 'c', 'e', 's']
    (by decide) (by decide) (by decide) (by decide) (by decide) (by decide)
  have h := normalize_unit_of_match (s := "12 fluid ounces") (by decide) hm
  rw [h, show lowerStr (String.mk ['f', 'l', 'u', 'i', 'd']) = "fluid" from rfl,
    convertUnit_fluid, show digitsVal ['1', '2'] = 12 from rfl]
  norm_num

/-- Concrete evaluation: `normalize_unit "100g" = (100, "g")`. -/
theorem normalize_unit_100g : normalize_unit "100g" = (100, "g") := by
  have hm := @matchNumUnit_run ['1', '0', '0'] [] ['g'] []
    (by decide) (by decide) (by decide) (by decide) (by decide) (by decide)
  have h := normalize_unit_of_match (s := "100g") (by decide) hm
  rw [h, show lowerStr (String.mk ['g']) = "g" from rfl, convertUnit_g,
    show digitsVal ['1', '0', '0'] = 100 from rfl]
  norm_num

/-- Concrete evaluation for the tier-2 composition at `quantity = 200`,
`unit = "g"` (`f"{200.0} g"` is `"200.0 g"`). -/
theorem normalize_pyFloat_200g :
    normalize_unit (pyFloatStr 200 ++ " " ++ String.mk ['g']) = (200, "g") := by
  rw [show pyFloatStr 200 ++ " " ++ String.mk ['g'] = "200.0 g" from rfl]
  have hm := @matchNumUnit_run_frac ['2', '0', '0'] ['0'] [' ']
    ['g'] [] (by decide) (by decide) (by decide) (by decide) (by decide)
    (by decide) (by decide) (by decide)
  have h := normalize_unit_of_match (s := "200.0 g") (by decide) hm
  rw [h, show lowerStr (String.mk ['g']) = "g" from rfl, convertUnit_g]
  rw [show ratVal ['2', '0', '0'] ['0'] = ((200 : ℚ) + 0 / 10 ^ 1) from
    (by rw [ratVal, show digitsVal ['2', '0', '0'] = 200 from rfl,
            show digitsVal ['0'] = 0 from rfl]; norm_num)]
  norm_num

/-- Concrete evaluation for the tier-2 composition at `quantity = 0`,
`unit = "g"` (`f"{0.0} g"` is `"0.0 g"`). -/
theorem normalize_pyFloat_0g :
    normalize_unit (pyFloatStr 0 ++ " " ++ String.mk ['g']) = (0, "g") := by
  rw [show pyFloatStr 0 ++ " " ++ String.mk ['g'] = "0.0 g" from rfl]
  have hm := @matchNumUnit_run_frac ['0'] ['0'] [' ']
    ['g'] [] (by decide) (by decide) (by decide) (by decide) (by decide)
    (by decide) (by decide) (by decide)
  have h := normalize_unit_of_match (s := "0.0 g") (by decide) hm
  rw [h, show lowerStr (String.mk ['g']) = "g" from rfl, convertUnit_g]
  rw [show ratVal ['0'] ['0'] = ((0 : ℚ) + 0 / 10 ^ 1) from
    (by rw [ratVal, show digitsVal ['0'] = 0 from rfl]; norm_num)]
  norm_num

/-- Concrete evaluation: `searchNumUnit` on `"200g"` finds `(200, ['g'])`. -/
theorem searchNumUnit_200g : searchNumUnit "200g".toList = some (200, ['g']) := by
  have hm := @matchNumUnit_run ['2', '0', '0'] [] ['g']
    []
    (by decide) (by decide) (by decide) (by decide) (by decide) (by decide)
  have h : matchNumUnit "200g".toList = some ((digitsVal ['2', '0', '0'] : ℚ), ['g']) := hm
  rw [show digitsVal ['2', '0', '0'] = 200 from rfl] at h
  have h' : matchNumUnit "200g".toList = some ((200 : ℚ), ['g']) := by
    rw [h]; norm_num
  exact searchNumUnit_of_match h'

/-- Concrete evaluation: `searchNumUnit` on `"0g"` finds `(0, ['g'])`. -/
theorem searchNumUnit_0g : searchNumUnit "0g".toList = some (0, ['g']) := by
  have hm := @matchNumUnit_run ['0'] [] ['g']
    []
    (by decide) (by decide) (by decide) (by decide) (by decide) (by decide)
  have h : matchNumUnit "0g".toList = some ((digitsVal ['0'] : ℚ), ['g']) := hm
  rw [show digitsVal ['0'] = 0 from rfl] at h
  have h' : matchNumUnit "0g".toList = some ((0 : ℚ), ['g']) := by
    rw [h]; norm_num
  exact searchNumUnit_of_match h'

/-- The attribute loop succeeds immediately on a key whose value matches
with positive normalized magnitude. -/
theorem attrUnitPriceGo_hit {attrs : List (String × String)} {price : ℚ}
    {currency k v : String} {ks : List String} {q : ℚ} {u : List Char}
    (hv : attrs.lookup k = some v) (hs : searchNumUnit v.toList = some (q, u))
    (hpos : 0 < (normalize_unit (pyFloatStr q ++ " " ++ String.mk u)).1) :
    attrUnitPriceGo attrs price currency (k :: ks) =
      some { price := price / (normalize_unit (pyFloatStr q ++ " " ++ String.mk u)).1,
             unit_value := (normalize_unit (pyFloatStr q ++ " " ++ String.mk u)).1,
             unit := (normalize_unit (pyFloatStr q ++ " " ++ String.mk u)).2,
             original_unit := pyFloatStr q ++ " " ++ String.mk u,
             currency := currency } := by
  rw [attrUnitPriceGo]
  simp only [hv, hs]
  rw [if_pos hpos]

/-! ### Claim theorems -/

/-- C1: the claim (and the spec table) says `"<n> fl oz"` — with aliases
`fluid ounce`, `fluid ounces` — normalizes to `n * 29.57` millilitres.  The
code cannot produce this: the regex unit group `[a-zA-Z]+` is a single
letter run and never contains a space, so `normalize_unit "12 fl oz"`
parses the unit token as `"fl"` and falls through to the default branch,
returning `(12, "fl")`, even though the code's own conversion table has a
branch mapping `"fl oz"` to `(value * 29.57, "ml")` — that branch is
unreachable dead code. -/
theorem C1_fl_oz_branch_unreachable :
    normalize_unit "12 fl oz" = (12, "fl") ∧
    normalize_unit "12 fluid ounces" = (12, "fluid") ∧
    convertUnit 12 "fl oz" = (12 * (2957 / 100 : ℚ), "ml") ∧
    normalize_unit "12 fl oz" ≠ (12 * (2957 / 100 : ℚ), "ml") := by
  refine ⟨normalize_unit_12_fl_oz, normalize_unit_12_fluid, rfl, ?_⟩
  rw [normalize_unit_12_fl_oz]
  intro h
  exact absurd (congrArg Prod.snd h) (by decide)

/-- C2 counterexample: the claim says a non-numeric prefix is ignored, so
`"approx 100g"` would normalize to the same result as `"100g"`.  The code
anchors the pattern at the start (`re.match`), so `"approx 100g"` fails to
parse and falls back to `(1, "approx 100g")`, while `normalize_unit "100g"
= (100, "g")`. -/
theorem C2_counterexample_prefix_not_ignored :
    normalize_unit "approx 100g" = (1, "approx 100g") ∧
    normalize_unit "100g" = (100, "g") ∧
    normalize_unit "approx 100g" ≠ normalize_unit "100g" := by
  refine ⟨rfl, normalize_unit_100g, ?_⟩
  rw [normalize_unit_100g, show normalize_unit "approx 100g" = (1, "approx 100g") from rfl]
  intro h
  exact absurd (congrArg Prod.snd h) (by decide)

/-- C2 (amended): the pattern is matched only at the start of the input: a
leading digit run (optionally a dot and a second digit run) followed by
optional whitespace and a letter run parses to that number and unit token,
with anything after the letter run ignored; but an input whose first
character is not a digit is not scanned further — normalize returns
magnitude 1 paired with the entire original string. -/
theorem C2_normalize_anchored_at_start :
    (∀ d sp l r : List Char,
      d ≠ [] → (∀ c ∈ d, isDigitChar c = true) →
      (∀ c ∈ sp, isSpaceChar c = true) →
      l ≠ [] → (∀ c ∈ l, isLetterChar c = true) →
      r.takeWhile isLetterChar = [] →
      normalize_unit (String.mk (d ++ (sp ++ (l ++ r)))) =
        convertUnit ((digitsVal d : ℚ)) (lowerStr (String.mk l))) ∧
    (∀ d f sp l r : List Char,
      d ≠ [] → (∀ c ∈ d, isDigitChar c = true) →
      f ≠ [] → (∀ c ∈ f, isDigitChar c = true) →
      (∀ c ∈ sp, isSpaceChar c = true) →
      l ≠ [] → (∀ c ∈ l, isLetterChar c = true) →
      r.takeWhile isLetterChar = [] →
      normalize_unit (String.mk (d ++ ('.' :: (f ++ (sp ++ (l ++ r)))))) =
        convertUnit (ratVal d f) (lowerStr (String.mk l))) ∧
    (∀ (c : Char) (cs : List Char), isDigitChar c = false →
      normalize_unit (String.mk (c :: cs)) = (1, String.mk (c :: cs))) := by
  refine ⟨?_, ?_, ?_⟩
  · intro d sp l r hd hdd hsp hl hll hr
    have hne : d ++ (sp ++ (l ++ r)) ≠ [] := by
      intro he
      exact hd (List.append_eq_nil.mp he).1
    exact normalize_unit_of_match (string_mk_ne_empty hne)
      (matchNumUnit_run hd hdd hsp hl hll hr)
  · intro d f sp l r hd hdd hf hff hsp hl hll hr
    have hne : d ++ ('.' :: (f ++ (sp ++ (l ++ r)))) ≠ [] := by
      intro he
      exact hd (List.append_eq_nil.mp he).1
    exact normalize_unit_of_match (string_mk_ne_empty hne)
      (matchNumUnit_run_frac hd hdd hf hff hsp hl hll hr)
  · intro c cs hc
    exact normalize_unit_no_match (string_mk_ne_empty (List.cons_ne_nil c cs))
      (matchNumUnit_head_not_digit hc)

/-- Witness for C2 (amended) at concrete inputs. -/
theorem C2_normalize_anchored_at_start_witness :
    normalize_unit "100 g" = (100, "g") ∧
    normalize_unit "1.5kg" = (1500, "g") ∧
    normalize_unit "approx 100g" = (1, "approx 100g") := by
  obtain ⟨h1, h2, h3⟩ := C2_normalize_anchored_at_start
  refine ⟨?_, ?_, ?_⟩
  · have h : normalize_unit "100 g" =
        convertUnit ((digitsVal ['1', '0', '0'] : ℚ)) (lowerStr (String.mk ['g'])) :=
      h1 ['1', '0', '0'] [' '] ['g'] [] (by decide) (by decide) (by decide)
        (by decide) (by decide) (by decide)
    rw [h, show lowerStr (String.mk ['g']) = "g" from rfl, convertUnit_g,
      show digitsVal ['1', '0', '0'] = 100 from rfl]
    norm_num
  · have h : normalize_unit "1.5kg" =
        convertUnit (ratVal ['1'] ['5']) (lowerStr (String.mk ['k', 'g'])) :=
      h2 ['1'] ['5'] [] ['k', 'g'] [] (by decide) (by decide) (by decide)
        (by decide) (by decide) (by decide) (by decide) (by decide)
    rw [h, show lowerStr (String.mk ['k', 'g']) = "kg" from rfl, convertUnit_kg,
      show ratVal ['1'] ['5'] = ((1 : ℚ) + 5 / 10 ^ 1) from
        (by rw [ratVal, show digitsVal ['1'] = 1 from rfl,
                show digitsVal ['5'] = 5 from rfl]; norm_num)]
    norm_num
  · exact h3 'a' "pprox 100g".toList (by decide)

/-- C6: empty input normalizes to one "item"; a nonempty input that the
anchored pattern cannot parse normalizes to magnitude 1 with the entire
original string as the unit token (e.g. `"500"`, which has no trailing
letters); the embedding is a total function, so no input raises. -/
theorem C6_empty_and_unparsed_fallbacks :
    normalize_unit "" = (1, "item") ∧
    (∀ s : String, s ≠ "" → matchNumUnit s.toList = none → normalize_unit s = (1, s)) ∧
    normalize_unit "500" = (1, "500") := by
  refine ⟨rfl, ?_, rfl⟩
  intro s hs hm
  exact normalize_unit_no_match hs hm

/-- Witness for C6 at a concrete unparsable nonempty input. -/
theorem C6_empty_and_unparsed_fallbacks_witness :
    normalize_unit "widgets" = (1, "widgets") :=
  C6_empty_and_unparsed_fallbacks.2.1 "widgets" (by decide) (by decide)

/-- C9: any parsed magnitude with (lowercased) unit `kg` — or the aliases
kilo, kilos, kilogram, kilograms — converts to `n * 1000` grams, and with
unit `lb`, `lbs`, `pound`, or `pounds` to `n * 453.59` grams; in particular
`normalize_unit "1kg" = (1000, "g")` and `normalize_unit "2 lbs" =
(907.18, "g")`. -/
theorem C9_kg_and_lbs_conversions :
    (∀ d : List Char, d ≠ [] → (∀ c ∈ d, isDigitChar c = true) →
      normalize_unit (String.mk (d ++ ['k', 'g'])) = ((digitsVal d : ℚ) * 1000, "g") ∧
      normalize_unit (String.mk (d ++ [' ', 'l', 'b', 's'])) =
        ((digitsVal d : ℚ) * (45359 / 100 : ℚ), "g")) ∧
    (∀ v : ℚ,
      convertUnit v "kg" = (v * 1000, "g") ∧
      convertUnit v "kilo" = (v * 1000, "g") ∧
      convertUnit v "kilos" = (v * 1000, "g") ∧
      convertUnit v "kilogram" = (v * 1000, "g") ∧
      convertUnit v "kilograms" = (v * 1000, "g") ∧
      convertUnit v "lb" = (v * (45359 / 100 : ℚ), "g") ∧
      convertUnit v "lbs" = (v * (45359 / 100 : ℚ), "g") ∧
      convertUnit v "pound" = (v * (45359 / 100 : ℚ), "g") ∧
      convertUnit v "pounds" = (v * (45359 / 100 : ℚ), "g")) ∧
    normalize_unit "1kg" = (1000, "g") ∧
    normalize_unit "2 lbs" = (45359 / 50, "g") := by
  have main : ∀ d : List Char, d ≠ [] → (∀ c ∈ d, isDigitChar c = true) →
      normalize_unit (String.mk (d ++ ['k', 'g'])) = ((digitsVal d : ℚ) * 1000, "g") ∧
      normalize_unit (String.mk (d ++ [' ', 'l', 'b', 's'])) =
        ((digitsVal d : ℚ) * (45359 / 100 : ℚ), "g") := by
    intro d hd hdd
    have hne : ∀ t : List Char, d ++ t ≠ [] := by
      intro t he
      exact hd (List.append_eq_nil.mp he).1
    constructor
    · have hm : matchNumUnit (d ++ ([] ++ (['k', 'g'] ++ []))) =
          some ((digitsVal d : ℚ), ['k', 'g']) :=
        matchNumUnit_run hd hdd (by simp) (by decide) (by decide) (by decide)
      simp only [List.nil_append, List.append_nil] at hm
      have h := normalize_unit_of_match (string_mk_ne_empty (hne ['k', 'g'])) hm
      rw [h, show lowerStr (String.mk ['k', 'g']) = "kg" from rfl, convertUnit_kg]
    · have hm : matchNumUnit (d ++ ([' '] ++ (['l', 'b', 's'] ++ []))) =
          some ((digitsVal d : ℚ), ['l', 'b', 's']) :=
        matchNumUnit_run hd hdd (by decide) (by decide) (by decide) (by decide)
      simp only [List.append_nil] at hm
      have hm' : matchNumUnit (d ++ [' ', 'l', 'b', 's']) =
          some ((digitsVal d : ℚ), ['l', 'b', 's']) := hm
      have h := normalize_unit_of_match (string_mk_ne_empty (hne [' ', 'l', 'b', 's'])) hm'
      rw [h, show lowerStr (String.mk ['l', 'b', 's']) = "lbs" from rfl, convertUnit_lbs]
  refine ⟨main, ?_, ?_, ?_⟩
  · intro v
    exact ⟨rfl, rfl, rfl, rfl, rfl, rfl, rfl, rfl, rfl⟩
  · have h := (main ['1'] (by decide) (by decide)).1
    rw [show normalize_unit "1kg" =
      normalize_unit (String.mk (['1'] ++ ['k', 'g'])) from rfl, h,
      show digitsVal ['1'] = 1 from rfl]
    norm_num
  · have h := (main ['2'] (by decide) (by decide)).2
    rw [show normalize_unit "2 lbs" =
      normalize_unit (String.mk (['2'] ++ [' ', 'l', 'b', 's'])) from rfl, h,
      show digitsVal ['2'] = 2 from rfl]
    norm_num

/-- Witness for C9 at a concrete digit run. -/
theorem C9_kg_and_lbs_conversions_witness :
    normalize_unit "7kg" = (7000, "g") ∧
    normalize_unit "7 lbs" = (7 * (45359 / 100 : ℚ), "g") := by
  have h := C9_kg_and_lbs_conversions.1 ['7'] (by decide) (by decide)
  constructor
  · rw [show normalize_unit "7kg" =
      normalize_unit (String.mk (['7'] ++ ['k', 'g'])) from rfl, h.1,
      show digitsVal ['7'] = 7 from rfl]
    norm_num
  · rw [show normalize_unit "7 lbs" =
      normalize_unit (String.mk (['7'] ++ [' ', 'l', 'b', 's'])) from rfl, h.2,
      show digitsVal ['7'] = 7 from rfl]
    norm_num

/-- C3: when the most recent observation has no (truthy) declared per-unit
pair and the first present key of `[size, weight, quantity, volume,
dimensions]` has a value matching the number-unit pattern with positive
normalized canonical magnitude m, `calculate_unit_price` returns the
observation amount divided by m. -/
theorem C3_attribute_tier_divides_total (p : Product) (cp : PricePoint) (key v : String)
    (q : ℚ) (u : List Char) (l1 l2 : List String)
    (hcp : p.current_price = some cp)
    (htier1 : (decimalTruthy cp.per_unit_price && strTruthy cp.unit_measurement) = false)
    (hkeys : unit_keys = l1 ++ key :: l2)
    (habs : ∀ k ∈ l1, p.attributes.lookup k = none)
    (hv : p.attributes.lookup key = some v)
    (hsearch : searchNumUnit v.toList = some (q, u))
    (hpos : 0 < (normalize_unit (pyFloatStr q ++ " " ++ String.mk u)).1) :
    (calculate_unit_price p).map (fun r => r.price) =
      some (cp.price / (normalize_unit (pyFloatStr q ++ " " ++ String.mk u)).1) := by
  rw [calculate_unit_price]
  simp only [hcp, htier1, Bool.false_eq_true, if_false]
  rw [attrUnitPrice, hkeys, attrUnitPriceGo_append_none l1 _ habs,
    attrUnitPriceGo_hit hv hsearch hpos]
  simp

/-- Witness for C3: the spec scenario — price 5.00 with `weight="200g"`
gives unit price 0.025 per gram. -/
theorem C3_attribute_tier_divides_total_witness :
    (calculate_unit_price weightedProduct).map (fun r => r.price) = some (1 / 40 : ℚ) := by
  have h := C3_attribute_tier_divides_total weightedProduct { price := 5, timestamp := 1 }
    "weight" "200g" 200 ['g'] ["size"] ["quantity", "volume", "dimensions"]
    rfl rfl rfl (by decide) (by decide) searchNumUnit_200g
    (by rw [normalize_pyFloat_200g]; norm_num)
  rw [h, normalize_pyFloat_200g]
  norm_num

/-- C4: `calculate_unit_price` is absent exactly for products with an empty
observation history, and `compare_products` (for any target unit) returns
exactly one row per product with a nonempty history, silently dropping the
rest. -/
theorem C4_absent_iff_no_observations :
    (∀ p : Product, calculate_unit_price p = none ↔ p.price_history = []) ∧
    (∀ (ps : List Product) (t : Option String),
      (compare_products ps t).length =
        (ps.filter (fun p => !p.price_history.isEmpty)).length) := by
  refine ⟨calculate_unit_price_none_iff, ?_⟩
  intro ps t
  rw [← buildRows_length]
  rcases t with _ | t
  · simp only [compare_products, List.length_insertionSort]
  · simp only [compare_products]
    split_ifs with h
    · simp only [List.length_insertionSort]
    · simp only [List.length_insertionSort]

/-- C5: the attribute tier divides only by a strictly positive normalized
magnitude (every result it produces has `0 < unit_value` and amount
`price / unit_value`), and a key whose match normalizes to a non-positive
magnitude is skipped — evaluation falls through to the remaining keys (and
finally to the per-item tier). -/
theorem C5_division_guarded_by_positive_magnitude :
    (∀ (attrs : List (String × String)) (price : ℚ) (currency : String)
      (ks : List String) (r : UnitPriceInfo),
      attrUnitPriceGo attrs price currency ks = some r →
        0 < r.unit_value ∧ r.price = price / r.unit_value) ∧
    (∀ (attrs : List (String × String)) (price : ℚ) (currency k v : String)
      (ks : List String) (q : ℚ) (u : List Char),
      attrs.lookup k = some v → searchNumUnit v.toList = some (q, u) →
      (normalize_unit (pyFloatStr q ++ " " ++ String.mk u)).1 ≤ 0 →
      attrUnitPriceGo attrs price currency (k :: ks) =
        attrUnitPriceGo attrs price currency ks) :=
  ⟨fun _ _ _ ks r h => attrUnitPriceGo_pos ks r h,
   fun _ _ _ _ _ _ _ _ hv hs hnp => attrUnitPriceGo_skip_nonpos hv hs hnp⟩

/-- Witness for C5: a `size="0g"` attribute (magnitude 0) is skipped in
favour of the next key, and a successful attribute hit has positive
magnitude with amount = price / magnitude. -/
theorem C5_division_guarded_by_positive_magnitude_witness :
    (attrUnitPriceGo [("size", "0g"), ("weight", "200g")] 5 "USD" ["size", "weight"] =
      attrUnitPriceGo [("size", "0g"), ("weight", "200g")] 5 "USD" ["weight"]) ∧
    (0 < ({ price := 5 / 200, unit_value := 200, unit := "g", original_unit := "200.0 g",
            currency := "USD" } : UnitPriceInfo).unit_value ∧
      ({ price := 5 / 200, unit_value := 200, unit := "g", original_unit := "200.0 g",
         currency := "USD" } : UnitPriceInfo).price =
        5 / ({ price := 5 / 200, unit_value := 200, unit := "g", original_unit := "200.0 g",
               currency := "USD" } : UnitPriceInfo).unit_value) := by
  constructor
  · exact C5_division_guarded_by_positive_magnitude.2 [("size", "0g"), ("weight", "200g")]
      5 "USD" "size" "0g" ["weight"] 0 ['g'] (by decide) searchNumUnit_0g
      (by rw [normalize_pyFloat_0g])
  · have hgo := @attrUnitPriceGo_hit [("weight", "200g")] 5
      "USD" "weight" "200g" [] 200 ['g']
      (by decide) searchNumUnit_200g (by rw [normalize_pyFloat_200g]; norm_num)
    rw [normalize_pyFloat_200g,
      show pyFloatStr 200 ++ " " ++ String.mk ['g'] = "200.0 g" from rfl] at hgo
    exact C5_division_guarded_by_positive_magnitude.1 _ _ _ _ _ hgo

/-- C7: on a history of exactly two observations where the one with the
strictly later timestamp is cheaper, `price_change` reports a negative
`absolute` and `has_changed = true` (the sign encodes the decrease). -/
theorem C7_later_cheaper_negative_change (p : Product) (a b : PricePoint)
    (h : p.price_history = [a, b])
    (hlt : (a.timestamp < b.timestamp ∧ b.price < a.price) ∨
           (b.timestamp < a.timestamp ∧ a.price < b.price)) :
    (Product.price_change p).absolute < 0 ∧ (Product.price_change p).has_changed = true := by
  rw [Product.price_change, h]
  rw [if_neg (by simp)]
  rcases hlt with ⟨ht, hp⟩ | ⟨ht, hp⟩
  · have hsort : sortedAscBy (fun q : PricePoint => q.timestamp) [a, b] = [a, b] := by
      simp [sortedAscBy, List.insertionSort, List.orderedInsert, le_of_lt ht]
    rw [hsort]
    exact ⟨sub_neg.mpr hp, decide_eq_true (ne_of_lt hp)⟩
  · have hsort : sortedAscBy (fun q : PricePoint => q.timestamp) [a, b] = [b, a] := by
      simp [sortedAscBy, List.insertionSort, List.orderedInsert, not_le.mpr ht]
    rw [hsort]
    exact ⟨sub_neg.mpr hp, decide_eq_true (ne_of_lt hp)⟩

/-- Witness for C7: two observations, the later one cheaper. -/
theorem C7_later_cheaper_negative_change_witness :
    (Product.price_change droppedPriceProduct).absolute < 0 ∧
    (Product.price_change droppedPriceProduct).has_changed = true :=
  C7_later_cheaper_negative_change droppedPriceProduct
    { price := 5, timestamp := 1 } { price := 3, timestamp := 2 }
    rfl (Or.inl ⟨by norm_num, by norm_num⟩)

/-- C8 counterexample: the claim says rows come back ascending by total
price with only an *absent* total treated as infinitely large.  The code's
sort key uses Python truthiness (`float(x) if x else inf`), so a **zero**
total is also treated as infinite: products totalling 0 and 3 come back
ordered [3, 0], which is not ascending by total price under the claimed
order. -/
theorem C8_counterexample_zero_total_sorts_last :
    (compare_products [zeroTotalProduct, threeTotalProduct] none).map
      (fun r => r.total_price) = [some 3, some 0] ∧
    ¬ List.Sorted
      (fun a b : ComparisonRow =>
        (a.total_price.elim ⊤ fun t => (t : WithTop ℚ)) ≤
          (b.total_price.elim ⊤ fun t => (t : WithTop ℚ)))
      (compare_products [zeroTotalProduct, threeTotalProduct] none) := by
  refine ⟨rfl, ?_⟩
  intro hs
  have hp : List.Pairwise
      (fun a b : Option ℚ =>
        (a.elim ⊤ fun t => (t : WithTop ℚ)) ≤ (b.elim ⊤ fun t => (t : WithTop ℚ)))
      [some (3 : ℚ), some 0] := by
    have h2 := (List.pairwise_map (f := fun r : ComparisonRow => r.total_price)
      (R := fun a b : Option ℚ =>
        (a.elim ⊤ fun t => (t : WithTop ℚ)) ≤ (b.elim ⊤ fun t => (t : WithTop ℚ)))
      (l := compare_products [zeroTotalProduct, threeTotalProduct] none)).mpr hs
    rw [show (compare_products [zeroTotalProduct, threeTotalProduct] none).map
      (fun r => r.total_price) = [some (3 : ℚ), some 0] from rfl] at h2
    exact h2
  rcases List.pairwise_cons.mp hp with ⟨h1, _⟩
  have h30 := h1 (some 0) (by simp)
  rw [show ((some (3 : ℚ)).elim ⊤ fun t => (t : WithTop ℚ)) = ((3 : ℚ) : WithTop ℚ) from rfl,
    show ((some (0 : ℚ)).elim ⊤ fun t => (t : WithTop ℚ)) = ((0 : ℚ) : WithTop ℚ) from rfl,
    WithTop.coe_le_coe] at h30
  norm_num at h30

/-- C8 (amended): with no target unit (or a target the rows do not all
match), `compare_products` returns the rows sorted ascending by the code's
total-price key, under which an absent **or zero** total counts as
infinitely large; the output is a permutation of the built rows, and
products totalling 5 and 3 come back ordered [3, 5]. -/
theorem C8_default_sort_by_total_key :
    (∀ ps : List Product,
      List.Sorted (fun a b : ComparisonRow => totalKey a ≤ totalKey b)
        (compare_products ps none) ∧
      (compare_products ps none).Perm (buildRows ps)) ∧
    (∀ (ps : List Product) (t : String),
      ¬(t ≠ "" ∧ buildRows ps ≠ [] ∧
          (buildRows ps).all (fun r => r.unit_price_info.unit == t) = true) →
      List.Sorted (fun a b : ComparisonRow => totalKey a ≤ totalKey b)
        (compare_products ps (some t))) ∧
    (compare_products [fiveTotalProduct, threeTotalProduct] none).map
      (fun r => r.total_price) = [some 3, some 5] := by
  haveI hTot : IsTotal ComparisonRow (fun a b => totalKey a ≤ totalKey b) :=
    ⟨fun a b => le_total _ _⟩
  haveI hTrans : IsTrans ComparisonRow (fun a b => totalKey a ≤ totalKey b) :=
    ⟨fun _ _ _ h1 h2 => le_trans h1 h2⟩
  refine ⟨?_, ?_, rfl⟩
  · intro ps
    constructor
    · simp only [compare_products]
      exact List.sorted_insertionSort _ _
    · simp only [compare_products]
      exact List.perm_insertionSort _ _
  · intro ps t h
    simp only [compare_products]
    rw [if_neg h]
    exact List.sorted_insertionSort _ _

/-- Witness for C8 (amended): a mismatched target unit falls back to the
default total-price ordering. -/
theorem C8_default_sort_by_total_key_witness :
    List.Sorted (fun a b : ComparisonRow => totalKey a ≤ totalKey b)
      (compare_products [fiveTotalProduct, threeTotalProduct] (some "g")) :=
  C8_default_sort_by_total_key.2.1 [fiveTotalProduct, threeTotalProduct] "g"
    (by intro h; exact absurd (h.2.2) (by decide))

/-- C10: `current_price` sorts by timestamp descending with a stable sort,
so among observations sharing the maximal timestamp the one appended
earliest is returned — the tie-break left open by the spec is fixed. -/
theorem C10_current_price_stable_tiebreak (p : Product) (h : p.price_history ≠ []) :
    p.current_price = firstMaxByTimestamp p.price_history := by
  rw [Product.current_price, if_neg h]
  exact head_insertionSort_desc p.price_history

/-- Witness for C10: two observations share the maximal timestamp; the
first-appended one (price 10) wins. -/
theorem C10_current_price_stable_tiebreak_witness :
    tiedTimestampProduct.current_price = firstMaxByTimestamp tiedTimestampProduct.price_history ∧
    tiedTimestampProduct.current_price = some { price := 10, timestamp := 5 } :=
  ⟨C10_current_price_stable_tiebreak tiedTimestampProduct (by decide), rfl⟩
